import Mathlib

/-
Verification of pdf2ppt (src/pdf2ppt.py) against its design document.

The file shallowly embeds the two core functions of the repository:

  * extract_pdf_comments_with_pages  (pdf2ppt.py lines 12-56)
  * convert_pdf_to_ppt_with_comments (pdf2ppt.py lines 59-166)

External effects are made explicit:
  * fitz.open is replaced by an OpenResult value describing what opening
    the path would yield (a parsed document, or an open failure);
  * page.annots() may raise while scanning, so a Page carries the outcome
    of enumerating its annotations as an Except value;
  * the scratch directory "temp_pdf_images" is modelled as an optional
    list of file basenames (none when the directory does not exist);
  * whether prs.save would succeed at the destination is a Boolean input;
  * raster pixel data is not modelled: a Picture records the file path the
    image was written to and the dpi it was rendered at.

A Python function call either returns a value or raises, so the embedded
functions return Except values; branches the source wraps in try/except
are embedded as the caught, normal-return outcome the source produces.
-/

/-- An annotation object: numeric type code (annot.type[0]), symbolic type
name (annot.type[1]), and the content string of its info record when
present (annot.info.get("content") — none models an absent key). -/
structure Annot where
  typeCode : Int
  typeName : String
  content : Option String
deriving Repr, DecidableEq

/-- A PDF page: rectangle geometry in points (page.rect.width/height) and
the outcome of enumerating its annotations — page.annots() (or loading the
page) can raise a read error, modelled as the error branch. -/
structure Page where
  width : Rat
  height : Rat
  annots : Except String (List Annot)
deriving Repr

/-- An opened PDF document: its ordered, 0-indexed pages. -/
structure Doc where
  pages : List Page
deriving Repr

/-- What fitz.open(pdf_path) yields at a given path: a parsed document, or
an open failure (missing, unreadable or unparseable file). -/
inductive OpenResult where
  | ok (doc : Doc)
  | openError (msg : String)
deriving Repr

/-- The page-indexed comment mapping built by the extractor: association
list from 0-indexed page number to the page's comment strings, in the
order the entries were inserted (increasing page number). -/
abbrev CommentsByPage := List (Nat × List String)

/-- Whether an Except value is the normal-return branch. -/
def isOkE (e : Except ε α) : Bool :=
  match e with
  | .ok _ => true
  | .error _ => false

/-- The annotation-type test of pdf2ppt.py line 41:
annot.type[1] == "Text" or annot.type[0] == 0 or annot.type[0] == 8. -/
def keepAnnot (a : Annot) : Bool :=
  a.typeName == "Text" || a.typeCode == 0 || a.typeCode == 8

/-- annot.info.get("content", "") of pdf2ppt.py line 43: the content field,
defaulting to the empty string when the key is absent. -/
def annotContent (a : Annot) : String :=
  a.content.getD ""

/-- One iteration of the annotation loop of pdf2ppt.py lines 35-48: keep
the annotation's content when its type matches and the content is a
non-empty string (Python's `if content:` truthiness test). -/
def pageCommentsStep (acc : List String) (a : Annot) : List String :=
  if keepAnnot a then
    if annotContent a != "" then acc ++ [annotContent a] else acc
  else acc

/-- The comments collected from one page's annotation list, in encounter
order (the page_comments accumulator of pdf2ppt.py lines 33-48). -/
def pageComments (l : List Annot) : List String :=
  l.foldl pageCommentsStep []

/-- The condition under which one annotation survives the loop, written as
a single predicate (used to characterise pageComments as a filter). -/
def commentFilter (a : Annot) : Bool :=
  keepAnnot a && (annotContent a != "")

/-- The page loop of pdf2ppt.py lines 31-53, scanning pages from index k
upward: a read error on any page propagates (as the uncaught exception
does in the source, discarding the partially built dict); otherwise a
page's entry is recorded exactly when its comment list is non-empty
(line 52's `if page_comments:`). -/
def extractPages : List Page → Nat → Except String CommentsByPage
  | [], _ => .ok []
  | p :: rest, k =>
    match p.annots with
    | .error e => .error e
    | .ok l =>
      match extractPages rest (k + 1) with
      | .error e => .error e
      | .ok m =>
        .ok (if (pageComments l).isEmpty then m else (k, pageComments l) :: m)

/-- What a call to extract_pdf_comments_with_pages leaves behind: the value
returned or exception raised, whether doc.close() (line 55) was reached,
and whether the open-failure message (line 28) was printed. -/
structure ExtractOutcome where
  result : Except String CommentsByPage
  docClosed : Bool
  openErrorLogged : Bool
deriving Repr

/-- extract_pdf_comments_with_pages (pdf2ppt.py lines 12-56). An open
failure is caught (lines 25-29): the error is printed and the empty
mapping returned. The scan itself has no exception handler and no
try/finally, so a read error raised while scanning propagates before
doc.close() on line 55 is reached. -/
def extract_pdf_comments_with_pages (pdf : OpenResult) : ExtractOutcome :=
  match pdf with
  | .openError _ =>
    { result := .ok [], docClosed := false, openErrorLogged := true }
  | .ok doc =>
    match extractPages doc.pages 0 with
    | .error e => { result := .error e, docClosed := false, openErrorLogged := false }
    | .ok m => { result := .ok m, docClosed := true, openErrorLogged := false }

/-- Basename of the scratch raster for 0-indexed page n:
f"page_{page_num + 1}.png" (pdf2ppt.py line 114). -/
def pageFile (n : Nat) : String :=
  "page_" ++ toString (n + 1) ++ ".png"

/-- os.path.join(temp_image_dir, pageFile n): the path the raster is saved
to and the picture is inserted from (pdf2ppt.py lines 114, 123). -/
def imageFilename (n : Nat) : String :=
  "temp_pdf_images/" ++ pageFile n

/-- The scratch basenames written during a run over n pages. -/
def scratchNames (n : Nat) : List String :=
  (List.range n).map pageFile

/-- pix.save on the scratch directory: writing a file adds its basename to
the directory listing (overwriting if it is already present). -/
def insertFile (d : List String) (f : String) : List String :=
  if f ∈ d then d else d ++ [f]

/-- os.remove guarded by os.path.exists (pdf2ppt.py lines 152-153): drop
the basename from the directory listing when present. -/
def removeFile (d : List String) (f : String) : List String :=
  d.filter (fun g => g != f)

/-- Boolean list membership over strings, for executable directory tests. -/
def memB (f : String) : List String → Bool
  | [] => false
  | g :: gs => (f == g) || memB f gs

/-- A full-slide picture: the file it was inserted from, its position and
extent in inches, and the dpi the raster was rendered at. -/
structure Picture where
  file : String
  left : Rat
  top : Rat
  width : Rat
  height : Rat
  dpi : Nat
deriving Repr, DecidableEq

/-- One slide: its single full-bleed picture and its notes text, none when
the notes slide was never touched. -/
structure Slide where
  picture : Picture
  notes : Option String
deriving Repr, DecidableEq

/-- The presentation: deck-level slide geometry in inches and the slides
in creation order. -/
structure Deck where
  slideWidth : Rat
  slideHeight : Rat
  slides : List Slide
deriving Repr, DecidableEq

/-- python-pptx default template slide width, inches. -/
def defaultSlideWidth : Rat := 10

/-- python-pptx default template slide height, inches. -/
def defaultSlideHeight : Rat := 15 / 2

/-- "\n".join(comments) of pdf2ppt.py line 138. -/
def joinComments (cs : List String) : String :=
  String.intercalate "\n" cs

/-- The slide built for 0-indexed page i (pdf2ppt.py lines 108-145): a new
slide on the blank layout, the page's raster inserted at the origin sized
to the deck geometry, and — exactly when comments_data has an entry for i
(line 132) — notes text set to the entry joined by newlines (line 138). -/
def mkSlide (w h : Rat) (cd : CommentsByPage) (dpi : Nat) (i : Nat) : Slide :=
  { picture :=
      { file := imageFilename i, left := 0, top := 0, width := w, height := h, dpi := dpi }
  , notes := (cd.lookup i).map joinComments }

/-- What a call to convert_pdf_to_ppt_with_comments leaves behind: the deck
built in memory (none when opening failed before Presentation() ran), the
final scratch-directory state (none when the directory does not exist),
the path the deck was persisted to (none when no save succeeded), and
which console conditions were reported. -/
structure ConvertResult where
  deck : Option Deck
  scratchDir : Option (List String)
  savedTo : Option String
  openErrorLogged : Bool
  saveErrorLogged : Bool
  cleanupWarning : Bool
  docClosed : Bool
deriving Repr, DecidableEq

/-- The body of convert_pdf_to_ppt_with_comments after the document opened
(pdf2ppt.py lines 80-166), in source order: deck geometry from the first
page when the document is non-empty (lines 85-94), scratch directory
created if absent (lines 104-106), per-page loop writing one raster and
building one slide per page (lines 108-147), per-file cleanup then rmdir
exactly when the directory emptied, warning otherwise (lines 150-159),
doc.close() (line 161), and the guarded save (lines 162-166) whose failure
is caught and printed. scratch0 is the pre-existing directory listing and
saveOk whether the destination is writable. -/
def convertDoc (doc : Doc) (pptPath : String) (cd : CommentsByPage) (dpi : Nat)
    (scratch0 : Option (List String)) (saveOk : Bool) : ConvertResult :=
  let n := doc.pages.length
  let w := match doc.pages with
    | [] => defaultSlideWidth
    | fp :: _ => fp.width / 72
  let h := match doc.pages with
    | [] => defaultSlideHeight
    | fp :: _ => fp.height / 72
  let dir0 := scratch0.getD []
  let dirLoop := (scratchNames n).foldl insertFile dir0
  let slides := (List.range n).map (mkSlide w h cd dpi)
  let cleaned := (scratchNames n).foldl removeFile dirLoop
  { deck := some { slideWidth := w, slideHeight := h, slides := slides }
  , scratchDir := if cleaned.isEmpty then none else some cleaned
  , savedTo := if saveOk then some pptPath else none
  , openErrorLogged := false
  , saveErrorLogged := !saveOk
  , cleanupWarning := !cleaned.isEmpty
  , docClosed := true }

/-- convert_pdf_to_ppt_with_comments (pdf2ppt.py lines 59-166). An open
failure is caught (lines 74-78): the error is printed and the function
returns at once — nothing was built, written or saved. Otherwise the body
runs to completion (raster writes are assumed to succeed; only the save is
guarded in the source). The call returns normally on every modelled path,
which the Except wrapper records as the ok branch. -/
def convert_pdf_to_ppt_with_comments (pdf : OpenResult) (pptPath : String)
    (cd : CommentsByPage) (dpi : Nat) (scratch0 : Option (List String))
    (saveOk : Bool) : Except String ConvertResult :=
  match pdf with
  | .openError _ =>
    .ok { deck := none, scratchDir := scratch0, savedTo := none
        , openErrorLogged := true, saveErrorLogged := false
        , cleanupWarning := false, docClosed := false }
  | .ok doc => .ok (convertDoc doc pptPath cd dpi scratch0 saveOk)

/-- Modelled from the spec: the files the design says may legitimately
remain in the scratch directory after cleanup — exactly the pre-existing
entries that are not per-page rasters of this run. Compared below with the
cleanup the source performs. -/
def cleanupLeftoverSpec (n : Nat) (d0 : List String) : List String :=
  d0.filter (fun f => !(memB f (scratchNames n)))

/-- A one-page document with no annotations, page geometry US Letter. -/
def docOnePage : Doc :=
  { pages := [ { width := 612, height := 792, annots := .ok [] } ] }

/-- A sticky-note annotation carrying the text "hi". -/
def annotW : Annot := { typeCode := 0, typeName := "Text", content := some "hi" }

/-- A two-page document: one comment on page 0, none on page 1. -/
def docW : Doc :=
  { pages := [ { width := 612, height := 792, annots := .ok [annotW] }
             , { width := 612, height := 792, annots := .ok [] } ] }

/-- A one-page document whose annotation enumeration raises a read error. -/
def docBadRead : Doc :=
  { pages := [ { width := 612, height := 792, annots := .error "read error" } ] }

/-- Unfolding the per-page accumulator: folding the annotation loop from
any accumulator appends exactly the contents of the retained annotations,
in encounter order. -/
lemma pageComments_foldl (l : List Annot) :
    ∀ acc : List String,
      l.foldl pageCommentsStep acc = acc ++ (l.filter commentFilter).map annotContent := by
  induction l with
  | nil => intro acc; simp
  | cons a l ih =>
    intro acc
    rw [List.foldl_cons, ih]
    cases hk : keepAnnot a <;> cases hc : annotContent a != "" <;>
      simp [pageCommentsStep, commentFilter, hk, hc, List.filter_cons]

/-- pageComments as a filter-then-map over the annotation list. -/
lemma pageComments_eq_filter_map (l : List Annot) :
    pageComments l = (l.filter commentFilter).map annotContent := by
  simpa using pageComments_foldl l []

/-- Every value recorded by the page loop is a non-empty comment list. -/
lemma extractPages_values_ne_nil :
    ∀ (pages : List Page) (k : Nat) (m : CommentsByPage),
      extractPages pages k = .ok m → ∀ pr ∈ m, pr.2 ≠ [] := by
  intro pages
  induction pages with
  | nil =>
    intro k m h pr hpr
    simp [extractPages] at h
    subst h
    simp at hpr
  | cons p rest ih =>
    intro k m h pr hpr
    cases ha : p.annots with
    | error e => simp [extractPages, ha] at h
    | ok l =>
      cases hr : extractPages rest (k + 1) with
      | error e => simp [extractPages, ha, hr] at h
      | ok m2 =>
        simp [extractPages, ha, hr] at h
        by_cases hpc : pageComments l = []
        · rw [if_pos hpc] at h
          subst h
          exact ih (k + 1) m2 hr pr hpr
        · rw [if_neg hpc] at h
          subst h
          rcases List.mem_cons.1 hpr with hh | ht
          · subst hh
            exact hpc
          · exact ih (k + 1) m2 hr pr ht

/-- Keys recorded while scanning from index k are at least k. -/
lemma extractPages_keys_ge :
    ∀ (pages : List Page) (k : Nat) (m : CommentsByPage),
      extractPages pages k = .ok m → ∀ pr ∈ m, k ≤ pr.1 := by
  intro pages
  induction pages with
  | nil =>
    intro k m h pr hpr
    simp [extractPages] at h
    subst h
    simp at hpr
  | cons p rest ih =>
    intro k m h pr hpr
    cases ha : p.annots with
    | error e => simp [extractPages, ha] at h
    | ok l =>
      cases hr : extractPages rest (k + 1) with
      | error e => simp [extractPages, ha, hr] at h
      | ok m2 =>
        simp [extractPages, ha, hr] at h
        by_cases hpc : pageComments l = []
        · rw [if_pos hpc] at h
          subst h
          exact Nat.le_of_succ_le (ih (k + 1) m2 hr pr hpr)
        · rw [if_neg hpc] at h
          subst h
          rcases List.mem_cons.1 hpr with hh | ht
          · subst hh; exact Nat.le_refl k
          · exact Nat.le_of_succ_le (ih (k + 1) m2 hr pr ht)

/-- Key membership in the scan result: scanning from index k, index k + j
is a key exactly when page j of the scanned suffix exists, its annotations
enumerate cleanly, and it retains at least one comment. -/
lemma extractPages_mem_key_iff :
    ∀ (pages : List Page) (k j : Nat) (m : CommentsByPage),
      extractPages pages k = .ok m →
      ((∃ cs, (k + j, cs) ∈ m) ↔
        ∃ p, pages[j]? = some p ∧ ∃ l, p.annots = .ok l ∧ pageComments l ≠ []) := by
  intro pages
  induction pages with
  | nil =>
    intro k j m h
    simp [extractPages] at h
    subst h
    simp
  | cons p rest ih =>
    intro k j m h
    cases ha : p.annots with
    | error e => simp [extractPages, ha] at h
    | ok l =>
      cases hr : extractPages rest (k + 1) with
      | error e => simp [extractPages, ha, hr] at h
      | ok m2 =>
        simp [extractPages, ha, hr] at h
        by_cases hpc : pageComments l = []
        · rw [if_pos hpc] at h
          subst h
          cases j with
          | zero =>
            constructor
            · rintro ⟨cs, hcs⟩
              have := extractPages_keys_ge rest (k + 1) m2 hr _ hcs
              omega
            · rintro ⟨q, hq, l2, hl2, hne⟩
              simp at hq
              subst hq
              rw [ha] at hl2
              cases hl2
              exact absurd hpc hne
          | succ j =>
            have hstep : k + (j + 1) = (k + 1) + j := by omega
            rw [hstep]
            simpa using ih (k + 1) j m2 hr
        · rw [if_neg hpc] at h
          subst h
          cases j with
          | zero =>
            apply iff_of_true
            · exact ⟨pageComments l, by simp⟩
            · exact ⟨p, by simp, l, ha, hpc⟩
          | succ j =>
            have hstep : k + (j + 1) = (k + 1) + j := by omega
            constructor
            · rintro ⟨cs, hcs⟩
              rcases List.mem_cons.1 hcs with hh | ht
              · have : k + (j + 1) = k := congrArg Prod.fst hh
                omega
              · rw [hstep] at ht
                have := (ih (k + 1) j m2 hr).1 ⟨cs, ht⟩
                simpa using this
            · intro hx
              have hx2 : ∃ q, rest[j]? = some q ∧
                  ∃ l2, q.annots = .ok l2 ∧ pageComments l2 ≠ [] := by
                simpa using hx
              rcases (ih (k + 1) j m2 hr).2 hx2 with ⟨cs, hcs⟩
              exact ⟨cs, by rw [hstep]; exact List.mem_cons_of_mem _ hcs⟩

/-- memB agrees with list membership. -/
lemma memB_iff (f : String) : ∀ l : List String, memB f l = true ↔ f ∈ l := by
  intro l
  induction l with
  | nil => simp [memB]
  | cons g gs ih => simp [memB, ih, beq_iff_eq]

/-- Removing a batch of names from a directory listing filters the listing
to the entries outside the batch; order of survivors is preserved. -/
lemma removeFile_foldl_eq (names : List String) :
    ∀ d : List String, names.foldl removeFile d = d.filter (fun f => !(memB f names)) := by
  induction names with
  | nil =>
    intro d
    simp [memB, List.filter_true]
  | cons a names ih =>
    intro d
    rw [List.foldl_cons, ih]
    show (d.filter (fun g => g != a)).filter (fun f => !(memB f names)) = _
    rw [List.filter_filter]
    apply List.filter_congr
    intro x _
    simp [memB, bne, Bool.not_or, Bool.and_comm]

/-- Writing a batch of files appends some sublist of fresh names from the
batch to the listing. -/
lemma insertFile_foldl_decomp (names : List String) :
    ∀ d : List String, ∃ extra,
      names.foldl insertFile d = d ++ extra ∧ ∀ f ∈ extra, f ∈ names := by
  induction names with
  | nil =>
    intro d
    exact ⟨[], by simp, by simp⟩
  | cons a names ih =>
    intro d
    rcases ih (insertFile d a) with ⟨extra, he, hsub⟩
    rw [List.foldl_cons]
    by_cases hmem : a ∈ d
    · refine ⟨extra, ?_, fun f hf => List.mem_cons_of_mem a (hsub f hf)⟩
      rw [he]
      simp [insertFile, hmem]
    · refine ⟨a :: extra, ?_, ?_⟩
      · rw [he]
        simp [insertFile, hmem]
      · intro f hf
        rcases List.mem_cons.1 hf with hh | ht
        · exact hh ▸ List.mem_cons_self a names
        · exact List.mem_cons_of_mem a (hsub f ht)

/-- Writing every name of a batch and then removing every name of the same
batch leaves exactly the pre-existing entries outside the batch, in their
original order. -/
lemma cleanup_eq (names d : List String) :
    names.foldl removeFile (names.foldl insertFile d)
      = d.filter (fun f => !(memB f names)) := by
  rw [removeFile_foldl_eq]
  rcases insertFile_foldl_decomp names d with ⟨extra, he, hsub⟩
  rw [he, List.filter_append]
  have hnil : extra.filter (fun f => !(memB f names)) = [] := by
    apply List.filter_eq_nil_iff.2
    intro f hf
    simp [memB_iff]
    exact hsub f hf
  rw [hnil, List.append_nil]

/-- Every batch name is absent from the listing after batch removal. -/
lemma removeFile_foldl_not_mem (names d : List String) (f : String) (hf : f ∈ names) :
    f ∉ names.foldl removeFile d := by
  rw [removeFile_foldl_eq]
  intro hmem
  have := List.of_mem_filter hmem
  rw [Bool.not_eq_true', ← Bool.not_eq_true] at this
  exact this ((memB_iff f names).2 hf)

/-- pageFile i is among the scratch names of an n-page run exactly when
i < n. -/
lemma pageFile_mem_scratchNames (i n : Nat) (h : i < n) : pageFile i ∈ scratchNames n := by
  exact List.mem_map_of_mem pageFile (List.mem_range.2 h)

/-- Claim C1: for every valid source document, the conversion builds
exactly one slide per source page, in increasing page order (the i-th
slide carries the raster of page i), so the deck's slide count equals the
document's page count — zero slides for a zero-page document. -/
theorem convert_slide_count_per_page (doc : Doc) (pptPath : String)
    (cd : CommentsByPage) (dpi : Nat) (scratch0 : Option (List String)) (saveOk : Bool) :
    (convert_pdf_to_ppt_with_comments (.ok doc) pptPath cd dpi scratch0 saveOk).map
        (fun r => r.deck.map (fun dk =>
          (dk.slides.length, dk.slides.map (fun s => s.picture.file))))
      = .ok (some (doc.pages.length,
          (List.range doc.pages.length).map imageFilename)) := by
  simp [convert_pdf_to_ppt_with_comments, convertDoc, Except.map, mkSlide]

/-- Claim C2: for every page index i of the source document, slide i's
notes text is exactly the commentsByPage entry for i joined by a single
newline when such an entry exists, and is not set at all when no entry
exists — stated as: the deck's per-slide notes column equals the
newline-joined lookup of commentsByPage over the page indices, in order. -/
theorem convert_notes_from_comments (doc : Doc) (pptPath : String)
    (cd : CommentsByPage) (dpi : Nat) (scratch0 : Option (List String)) (saveOk : Bool) :
    (convert_pdf_to_ppt_with_comments (.ok doc) pptPath cd dpi scratch0 saveOk).map
        (fun r => r.deck.map (fun dk => dk.slides.map (fun s => s.notes)))
      = .ok (some ((List.range doc.pages.length).map
          (fun i => (cd.lookup i).map joinComments))) := by
  simp [convert_pdf_to_ppt_with_comments, convertDoc, Except.map, mkSlide]

/-- Claim C4: for every non-empty source document the deck geometry is set
once to (page1.width/72, page1.height/72) inches, derived from the first
page only, and every slide's full-bleed picture is sized to exactly that
single deck geometry regardless of per-page size variation. -/
theorem convert_geometry_from_first_page (fp : Page) (rest : List Page)
    (pptPath : String) (cd : CommentsByPage) (dpi : Nat)
    (scratch0 : Option (List String)) (saveOk : Bool) :
    (convert_pdf_to_ppt_with_comments (.ok { pages := fp :: rest }) pptPath cd dpi
        scratch0 saveOk).map
        (fun r => r.deck.map (fun dk =>
          (dk.slideWidth, dk.slideHeight,
            dk.slides.all (fun s =>
              s.picture.width == dk.slideWidth && s.picture.height == dk.slideHeight))))
      = .ok (some (fp.width / 72, fp.height / 72, true)) := by
  simp [convert_pdf_to_ppt_with_comments, convertDoc, Except.map, mkSlide,
    List.all_eq_true]

/-- Claim C3: the per-page annotation loop of
extract_pdf_comments_with_pages retains an annotation exactly when its
symbolic type name is "Text" or its numeric code is 0 or 8 AND its info
record's content field is present and non-empty; surviving contents are
appended in encounter order, each kept verbatim (embedded newlines and
all) as one comment string — i.e. the loop is the filter-then-project of
the annotation list under that condition. -/
theorem extract_comment_retention (l : List Annot) :
    pageComments l = (l.filter commentFilter).map annotContent ∧
    ∀ a : Annot, commentFilter a = true ↔
      ((a.typeName = "Text" ∨ a.typeCode = 0 ∨ a.typeCode = 8) ∧
        ∃ s, a.content = some s ∧ s ≠ "") := by
  refine ⟨pageComments_eq_filter_map l, fun a => ?_⟩
  have hcontent : (annotContent a != "") = true ↔ ∃ s, a.content = some s ∧ s ≠ "" := by
    cases hc : a.content <;> simp [annotContent, hc]
  have hkeep : keepAnnot a = true ↔
      (a.typeName = "Text" ∨ a.typeCode = 0 ∨ a.typeCode = 8) := by
    simp [keepAnnot, Bool.or_eq_true, beq_iff_eq, or_assoc]
  rw [commentFilter, Bool.and_eq_true, hcontent, hkeep]

/-- Claim C5: whenever the extractor returns a mapping, every value in it
is a non-empty comment list, and a page index is a key exactly when that
page retained at least one comment. -/
theorem extract_mapping_nonempty_iff (doc : Doc) (m : CommentsByPage)
    (h : (extract_pdf_comments_with_pages (.ok doc)).result = .ok m) :
    (∀ pr ∈ m, pr.2 ≠ []) ∧
    ∀ i : Nat, (∃ cs, (i, cs) ∈ m) ↔
      ∃ p, doc.pages[i]? = some p ∧ ∃ l, p.annots = .ok l ∧ pageComments l ≠ [] := by
  have hE : extractPages doc.pages 0 = .ok m := by
    cases hx : extractPages doc.pages 0 with
    | error e => simp [extract_pdf_comments_with_pages, hx] at h
    | ok m2 =>
      simp [extract_pdf_comments_with_pages, hx] at h
      subst h
      rfl
  refine ⟨extractPages_values_ne_nil doc.pages 0 m hE, fun i => ?_⟩
  have := extractPages_mem_key_iff doc.pages 0 i m hE
  simpa using this

/-- Concrete instantiation of extract_mapping_nonempty_iff: a two-page
document with one comment "hi" on page 0 and none on page 1 yields the
mapping [(0, ["hi"])], whose sole value is non-empty and whose sole key is
the sole page with a retained comment. -/
theorem extract_mapping_nonempty_iff_witness :
    (∀ pr ∈ [((0 : Nat), ["hi"])], pr.2 ≠ ([] : List String)) ∧
    ∀ i : Nat, (∃ cs, (i, cs) ∈ [((0 : Nat), ["hi"])]) ↔
      ∃ p, docW.pages[i]? = some p ∧ ∃ l, p.annots = .ok l ∧ pageComments l ≠ [] :=
  extract_mapping_nonempty_iff docW [(0, ["hi"])] (by rfl)

/-- Claim C6, counterexample: at a path that fails to open, the conversion
call returns normally (the open failure is caught on pdf2ppt.py lines
74-78 and only printed) — no OpenError reaches the caller, contrary to the
claim that one is raised. -/
theorem convert_open_error_cex :
    isOkE (convert_pdf_to_ppt_with_comments (.openError "missing.pdf") "out.pptx"
      [] 600 none true) = true := by rfl

/-- Claim C6, amended: for every path that does not resolve to a readable,
parseable PDF, convert_pdf_to_ppt_with_comments catches the open error,
logs it, and returns early without raising: no deck is built, no save is
attempted, and no output file is produced. -/
theorem convert_open_error_aborts (msg pptPath : String) (cd : CommentsByPage)
    (dpi : Nat) (scratch0 : Option (List String)) (saveOk : Bool) :
    convert_pdf_to_ppt_with_comments (.openError msg) pptPath cd dpi scratch0 saveOk
      = .ok { deck := none, scratchDir := scratch0, savedTo := none
            , openErrorLogged := true, saveErrorLogged := false
            , cleanupWarning := false, docClosed := false } := by rfl

/-- Claim C7: for a path that does not open as a PDF,
extract_pdf_comments_with_pages returns the empty mapping instead of
hard-aborting (the failure is only logged), and a zero-page document
likewise yields the empty mapping. -/
theorem extract_open_error_and_empty_doc (msg : String) :
    (extract_pdf_comments_with_pages (.openError msg)).result = .ok [] ∧
    (extract_pdf_comments_with_pages (.openError msg)).openErrorLogged = true ∧
    (extract_pdf_comments_with_pages (.ok { pages := [] })).result = .ok [] :=
  ⟨rfl, rfl, rfl⟩

/-- Claim C8, counterexample: at an unwritable destination, the conversion
call still returns normally — the save failure is caught on pdf2ppt.py
lines 162-166 and only printed, so no SaveError reaches the caller,
contrary to the claim that the call fails with one. -/
theorem convert_save_error_cex :
    isOkE (convert_pdf_to_ppt_with_comments (.ok docOnePage) "out.pptx"
        [] 600 none false) = true ∧
    (convert_pdf_to_ppt_with_comments (.ok docOnePage) "out.pptx"
        [] 600 none false).map (fun r => (r.savedTo, r.saveErrorLogged))
      = .ok (none, true) :=
  ⟨by rfl, by rfl⟩

/-- Claim C8, amended: if the destination cannot be written when the deck
is persisted at the end of the run, the save error is caught and only
logged to the console; the call returns normally (no SaveError reaches the
caller), no output file is produced, and the per-page scratch files were
already cleaned up (and the document closed) before the save attempt. -/
theorem convert_save_error_swallowed (doc : Doc) (pptPath : String)
    (cd : CommentsByPage) (dpi : Nat) (scratch0 : Option (List String)) :
    ∃ r, convert_pdf_to_ppt_with_comments (.ok doc) pptPath cd dpi scratch0 false
        = .ok r ∧
      r.savedTo = none ∧ r.saveErrorLogged = true ∧ r.docClosed = true ∧
      ∀ i, i < doc.pages.length → pageFile i ∉ r.scratchDir.getD [] := by
  refine ⟨convertDoc doc pptPath cd dpi scratch0 false, rfl, rfl, rfl, rfl, ?_⟩
  intro i hi
  show pageFile i ∉ (convertDoc doc pptPath cd dpi scratch0 false).scratchDir.getD []
  have hnot := removeFile_foldl_not_mem (scratchNames doc.pages.length)
    ((scratchNames doc.pages.length).foldl insertFile (scratch0.getD []))
    (pageFile i) (pageFile_mem_scratchNames i doc.pages.length hi)
  simp only [convertDoc]
  by_cases hclean : ((scratchNames doc.pages.length).foldl removeFile
      ((scratchNames doc.pages.length).foldl insertFile (scratch0.getD []))).isEmpty
  · rw [if_pos hclean]
    simp
  · rw [if_neg hclean]
    simpa using hnot

/-- Concrete instantiation of convert_save_error_swallowed on a one-page
document with a failing save. -/
theorem convert_save_error_swallowed_witness :
    ∃ r, convert_pdf_to_ppt_with_comments (.ok docOnePage) "report.pptx" [] 600 none false
        = .ok r ∧
      r.savedTo = none ∧ r.saveErrorLogged = true ∧ r.docClosed = true ∧
      ∀ i, i < docOnePage.pages.length → pageFile i ∉ r.scratchDir.getD [] :=
  convert_save_error_swallowed docOnePage "report.pptx" [] 600 none

/-- Claim C9, counterexample: on a document whose annotation scan raises a
read error, the exception propagates (pdf2ppt.py has no try/finally around
lines 31-53) and doc.close() on line 55 is never reached — the handle is
not released on this exit path, contrary to the claim. -/
theorem extract_read_error_leaks_handle_cex :
    (extract_pdf_comments_with_pages (.ok docBadRead)).result = .error "read error" ∧
    (extract_pdf_comments_with_pages (.ok docBadRead)).docClosed = false :=
  ⟨rfl, rfl⟩

/-- Claim C9, amended: extract_pdf_comments_with_pages closes the document
handle exactly when the page scan completes normally; when a read error is
raised while scanning pages or annotations, the exception propagates
without the handle being closed (and on the open-failure path no handle
was ever created). -/
theorem extract_close_iff_scan_ok (doc : Doc) :
    (extract_pdf_comments_with_pages (.ok doc)).docClosed
      = isOkE (extract_pdf_comments_with_pages (.ok doc)).result := by
  cases hx : extractPages doc.pages 0 <;>
    simp [extract_pdf_comments_with_pages, hx, isOkE]

/-- Claim C10: after all slides are built the conversion deletes every
per-page scratch raster it created, removes the scratch directory exactly
when the directory is empty afterwards (what remains is exactly the
pre-existing entries that are not this run's rasters, in order), records
only a non-fatal warning otherwise, and the deck is still saved whenever
the destination is writable. -/
theorem convert_scratch_cleanup (doc : Doc) (pptPath : String) (cd : CommentsByPage)
    (dpi : Nat) (scratch0 : Option (List String)) (saveOk : Bool) :
    ∃ r, convert_pdf_to_ppt_with_comments (.ok doc) pptPath cd dpi scratch0 saveOk
        = .ok r ∧
      r.scratchDir
        = (if (cleanupLeftoverSpec doc.pages.length (scratch0.getD [])).isEmpty
           then none
           else some (cleanupLeftoverSpec doc.pages.length (scratch0.getD []))) ∧
      r.cleanupWarning
        = !(cleanupLeftoverSpec doc.pages.length (scratch0.getD [])).isEmpty ∧
      r.savedTo = (if saveOk then some pptPath else none) ∧
      r.docClosed = true := by
  refine ⟨convertDoc doc pptPath cd dpi scratch0 saveOk, rfl, ?_, ?_, rfl, rfl⟩
  · show (if ((scratchNames doc.pages.length).foldl removeFile
        ((scratchNames doc.pages.length).foldl insertFile (scratch0.getD []))).isEmpty
      then none else some ((scratchNames doc.pages.length).foldl removeFile
        ((scratchNames doc.pages.length).foldl insertFile (scratch0.getD [])))) = _
    rw [cleanup_eq]
    rfl
  · show (!((scratchNames doc.pages.length).foldl removeFile
        ((scratchNames doc.pages.length).foldl insertFile (scratch0.getD []))).isEmpty) = _
    rw [cleanup_eq]
    rfl
